import Mathlib

/-!
Verification of the AI-Game-Buddy frontend game logic.

This file gives a shallow embedding, in Lean 4, of the parts of the
TypeScript sources that decide the claims under examination:

* the Ultimate Tic-Tac-Toe board components
  (`components/tic-tac-toe/ultimate-board.tsx` in both of its variants,
  `components/games/tic-tac-toe/board.tsx`, `cell.tsx`) — click gating
  (`handleCellClick`, `isBoardClickable`) and action emission;
* the demo move handler `handleMakeMove` of `app/games/1/page.tsx`;
* the chess component `components/games/chess.tsx` (`executeMove`,
  `handlePieceDrop`, `handleSquareClick`, `handlePromotion`,
  `handleCanDragPiece`), with the external chess.js library abstracted
  as a record of pure functions;
* the websocket send pipeline (`components/game-container.tsx`
  `handleMakeMove` and the provider's `sendMessage`);
* the zod validation schemas (`types/room.types.ts`,
  `types/games/game.types.ts`).

TypeScript arrays of fixed shape 3x3 are embedded as functions out of
`Fin 3`; nullable values as `Option`; JS truthiness of a nullable cell
value as `Option.isSome` (the possible cell strings are only `"X"`,
`"O"`, `"-"`, all truthy).
-/

/-- A non-null cell value: `"X"`, `"O"`, or the draw marker `"-"`
(the non-null part of `CellValue` in the source). -/
inductive Mark where
  | X
  | O
  | dash
deriving DecidableEq

/-- A 3x3 grid of nullable cell values (`SmallBoard` in the source). -/
abbrev SmallBoard := Fin 3 → Fin 3 → Option Mark

/-- Payload of an Ultimate Tic-Tac-Toe action
(`UltimateTicTacToePayload`): which sub-board and which cell inside it.
The coordinates emitted by the board component always come from map
indices and from `cellIndex` division, hence lie in `0..2`. -/
structure UltimateTicTacToePayload where
  board_row : Fin 3
  board_col : Fin 3
  row : Fin 3
  col : Fin 3
deriving DecidableEq

/-- The action verbs of `UltimateTicTacToeAction`. -/
inductive UltActionType where
  | PLACE_MARKER
  | RESIGN
deriving DecidableEq

/-- An Ultimate Tic-Tac-Toe action (`UltimateTicTacToeAction`). -/
structure UltimateTicTacToeAction where
  type : UltActionType
  payload : Option UltimateTicTacToePayload
deriving DecidableEq

/-- The game state (`UltimateTicTacToeState`), with the fields of the
`meta` record (`curr_player_index`, `player_symbols`, `winner`) of the
demo page inlined as fields. -/
structure UltimateTicTacToeState where
  game_id : String
  player_ids : List String
  finished : Bool
  curr_player_index : Nat
  player_symbols : List (String × Mark)
  winner : Option String
  turn : Option Int
  large_board : Fin 3 → Fin 3 → SmallBoard
  meta_board : SmallBoard
  active_board : Option (Fin 3 × Fin 3)
deriving DecidableEq

/-- Click gating of `handleCellClick` (src/unnamed/part_012, lines
50-75): reject when the target sub-board is already decided in the
meta board, the cell is taken, or a different sub-board is active;
otherwise emit a `PLACE_MARKER` action for the clicked cell. -/
def handleCellClick (gameState : UltimateTicTacToeState)
    (board_row board_col : Fin 3) (cellIndex : Fin 9) :
    Option UltimateTicTacToeAction :=
  let row : Fin 3 := ⟨cellIndex.val / 3, by have := cellIndex.isLt; omega⟩
  let col : Fin 3 := ⟨cellIndex.val % 3, by have := cellIndex.isLt; omega⟩
  let isBoardWon := (gameState.meta_board board_row board_col).isSome
  let isCellTaken := (gameState.large_board board_row board_col row col).isSome
  let isDifferentBoardActive :=
    match gameState.active_board with
    | none => false
    | some ab => decide (ab.1 ≠ board_row) || decide (ab.2 ≠ board_col)
  if isBoardWon || isCellTaken || isDifferentBoardActive then
    none
  else
    some { type := UltActionType.PLACE_MARKER,
           payload := some { board_row := board_row, board_col := board_col,
                             row := row, col := col } }

/-- The `isBoardClickable` flag computed per sub-board by
`components/tic-tac-toe/ultimate-board.tsx` (lines 52-67): the game has
not finished, the sub-board has no meta-board entry, and it is either
the active board or any board may be played. -/
def isBoardClickable (gameState : UltimateTicTacToeState)
    (board_row board_col : Fin 3) : Bool :=
  let winner := gameState.meta_board board_row board_col
  let isBoardWon := winner.isSome
  let isBoardActive :=
    match gameState.active_board with
    | none => false
    | some ab => decide (ab.1 = board_row) && decide (ab.2 = board_col)
  let canPlayAnywhere := gameState.active_board.isNone
  !gameState.finished && !isBoardWon && (isBoardActive || canPlayAnywhere)

/-- The unconditional action construction `handleBoardCellClick` of
`ultimate-board.tsx` (lines 69-79). -/
def handleBoardCellClick (board_row board_col : Fin 3) (cellIndex : Fin 9) :
    UltimateTicTacToeAction :=
  let row : Fin 3 := ⟨cellIndex.val / 3, by have := cellIndex.isLt; omega⟩
  let col : Fin 3 := ⟨cellIndex.val % 3, by have := cellIndex.isLt; omega⟩
  { type := UltActionType.PLACE_MARKER,
    payload := some { board_row := board_row, board_col := board_col,
                      row := row, col := col } }

/-- Emission through the `ultimate-board.tsx` pipeline: the `Board`
child passes `isClickable = isBoardClickable && !cell` to each `Cell`,
whose button is `disabled={!isClickable}`, so `handleBoardCellClick`
fires only for an empty cell of a clickable sub-board. -/
def ultimateBoardClick (gameState : UltimateTicTacToeState)
    (board_row board_col : Fin 3) (cellIndex : Fin 9) :
    Option UltimateTicTacToeAction :=
  let row : Fin 3 := ⟨cellIndex.val / 3, by have := cellIndex.isLt; omega⟩
  let col : Fin 3 := ⟨cellIndex.val % 3, by have := cellIndex.isLt; omega⟩
  let cell := gameState.large_board board_row board_col row col
  if isBoardClickable gameState board_row board_col && !cell.isSome then
    some (handleBoardCellClick board_row board_col cellIndex)
  else
    none

/-- The demo page's move handler `handleMakeMove`
(`app/games/1/page.tsx`, lines 47-76): returns `none` (no new state is
produced, `setGameState` is not called) when the game is finished or the
action has no payload; otherwise places the current player's symbol,
sets `active_board` to the played cell coordinates, advances the player
index modulo the player count, and increments the turn counter. -/
def handleMakeMove (gameState : UltimateTicTacToeState)
    (action : UltimateTicTacToeAction) : Option UltimateTicTacToeState :=
  if gameState.finished then none else
  match action.payload with
  | none => none
  | some p =>
    let currentPlayerSymbol : Option Mark :=
      (gameState.player_ids.get? gameState.curr_player_index).bind
        (fun pid => gameState.player_symbols.lookup pid)
    some { gameState with
      large_board := fun br bc =>
        if br = p.board_row ∧ bc = p.board_col then
          fun r c =>
            if r = p.row ∧ c = p.col then currentPlayerSymbol
            else gameState.large_board br bc r c
        else gameState.large_board br bc
      active_board := some (p.row, p.col)
      curr_player_index :=
        (gameState.curr_player_index + 1) % gameState.player_ids.length
      turn := some (gameState.turn.getD 0 + 1) }

/-- A concrete state whose `active_board` is the centre sub-board. -/
def witState : UltimateTicTacToeState where
  game_id := "sample-game-123"
  player_ids := ["player-1", "player-2"]
  finished := false
  curr_player_index := 0
  player_symbols := [("player-1", Mark.X), ("player-2", Mark.O)]
  winner := none
  turn := some 1
  large_board := fun _ _ _ _ => none
  meta_board := fun _ _ => none
  active_board := some (1, 1)

/-- A concrete state in which sub-board (1,1) is already won by X,
`active_board` is null and the game is not finished. -/
def wonTargetState : UltimateTicTacToeState where
  game_id := "sample-game-123"
  player_ids := ["player-1", "player-2"]
  finished := false
  curr_player_index := 0
  player_symbols := [("player-1", Mark.X), ("player-2", Mark.O)]
  winner := none
  turn := some 1
  large_board := fun _ _ _ _ => none
  meta_board := fun r c => if r = 1 ∧ c = 1 then some Mark.X else none
  active_board := none

/-- The action emitted when cell (1,1) of sub-board (0,0) is clicked in
`wonTargetState`. -/
def wonTargetAction : UltimateTicTacToeAction :=
  { type := UltActionType.PLACE_MARKER,
    payload := some { board_row := 0, board_col := 0, row := 1, col := 1 } }

/-- A concrete finished state. -/
def finishedState : UltimateTicTacToeState :=
  { witState with finished := true, winner := some "player-1" }

/-- A concrete in-progress state with empty boards and no active-board
constraint. -/
def freshState : UltimateTicTacToeState :=
  { witState with active_board := none }

/-- The state produced by `handleMakeMove` from `freshState` on the
action `wonTargetAction` (placing X in cell (1,1) of sub-board (0,0)). -/
def freshStateAfter : UltimateTicTacToeState :=
  (handleMakeMove freshState wonTargetAction).getD freshState

/-- Values of the zod game-type enum used by `RoomSchema` and
`RoomCreateRequestSchema` (`types/room.types.ts`, lines 3-18). -/
def roomGameTypeValues : List String := ["ulttt", "chess", "lands"]

/-- Validation of a room's `gameType` field by `RoomSchema`'s
`z.enum(["ulttt", "chess", "lands"])`. -/
def roomGameTypeValid (gameType : String) : Bool :=
  roomGameTypeValues.contains gameType

/-- Modelled from the spec: the four-value game-type enum named in
section 3 of the specification
(`chess | tic_tac_toe | ultimate_tic_tac_toe | lands`), for comparison
with `roomGameTypeValues` from the source. -/
def specGameTypeValues : List String :=
  ["chess", "tic_tac_toe", "ultimate_tic_tac_toe", "lands"]

/-- A phase descriptor (`PhaseSchema`'s object shape,
`types/games/game.types.ts`, lines 3-14). -/
structure Phase where
  current : String
  available_phases : List String
  _current_index : Option Int
deriving DecidableEq

/-- Validation performed by `PhaseSchema`: `available_phases` must have
at least one element (`.min(1)`) and the refinement requires `current`
to be a member of `available_phases`. -/
def phaseValid (p : Phase) : Bool :=
  decide (1 ≤ p.available_phases.length) &&
  p.available_phases.contains p.current

/-- The `PrivateStatesSchema` shape: a string-keyed record whose values
are `z.unknown()` (unconstrained), so only the key set is modelled. -/
structure PrivateStates where
  states : List String
deriving DecidableEq

/-- The generic game-state envelope (`GameStateSchema`'s object shape,
`types/games/game.types.ts`, lines 27-34). -/
structure GameState where
  game_id : String
  player_ids : List String
  finished : Bool
  turn : Option Int
  phase : Option Phase
  private_state : Option PrivateStates
deriving DecidableEq

/-- Hexadecimal digit test, for the uuid format check. -/
def isHexDigit (c : Char) : Bool :=
  ('0' ≤ c && c ≤ '9') || ('a' ≤ c && c ≤ 'f') || ('A' ≤ c && c ≤ 'F')

/-- The `z.string().uuid()` format check of `GameStateSchema.game_id`:
36 characters in five dash-separated hexadecimal groups of sizes
8-4-4-4-12. -/
def isUuid (str : String) : Bool :=
  let cs := str.toList
  decide (cs.length = 36) &&
  (List.range 36).all (fun i =>
    if i = 8 || i = 13 || i = 18 || i = 23 then
      cs.get? i == some '-'
    else
      match cs.get? i with
      | some c => isHexDigit c
      | none => false)

/-- Validation performed by `GameStateSchema` on the fields it
constrains: `game_id` must be a uuid, `turn` a non-negative integer or
null, and `phase` must pass `PhaseSchema` or be null (`player_ids`,
`finished` and `private_state` carry no further constraints). -/
def gameStateValid (gs : GameState) : Bool :=
  isUuid gs.game_id &&
  (match gs.turn with
   | none => true
   | some t => decide (0 ≤ t)) &&
  (match gs.phase with
   | none => true
   | some p => phaseValid p)

/-- A concrete phase descriptor that passes validation. -/
def phaseWit : Phase :=
  { current := "draw", available_phases := ["draw", "main"],
    _current_index := some 0 }

/-- A concrete game state that passes validation. -/
def gameStateWit : GameState :=
  { game_id := "123e4567-e89b-12d3-a456-426614174000"
    player_ids := ["player-1", "player-2"]
    finished := false
    turn := some 0
    phase := some phaseWit
    private_state := none }

/-- Connection status tracked by the websocket provider
(src/unnamed/part_015). -/
inductive ConnectionStatus where
  | connecting
  | connected
  | disconnected
deriving DecidableEq

/-- The browser WebSocket ready states; the provider's `sendMessage`
sends only in the OPEN state. -/
inductive WsReadyState where
  | connecting
  | openReady
  | closing
  | closed
deriving DecidableEq

/-- The payload of the inbound `game_action` envelope built by
`game-container.tsx` `handleMakeMove` (lines 43-59), generic in the
nested game action. -/
structure GameActionPayload (α : Type) where
  room_id : String
  game_type : String
  action : α
deriving DecidableEq

/-- A client-to-server websocket message: a `type` tag plus the
`game_action` payload. -/
structure WsClientMessage (α : Type) where
  type : String
  payload : GameActionPayload α
deriving DecidableEq

/-- The game container's `handleMakeMove` (lines 43-59): when the
connection status is not `connected` it returns without sending;
otherwise it wraps the action in the `game_action` envelope with the
container's `roomId` and `gameType` and hands it to `sendMessage`. -/
def containerHandleMakeMove {α : Type} (connectionStatus : ConnectionStatus)
    (roomId gameType : String) (action : α) : Option (WsClientMessage α) :=
  if connectionStatus ≠ ConnectionStatus.connected then
    none
  else
    some { type := "game_action",
           payload := { room_id := roomId, game_type := gameType,
                        action := action } }

/-- The provider's `sendMessage` (src/unnamed/part_015, lines 102-108):
the message is written to the socket only when a socket exists and its
`readyState` is OPEN; the result is the message actually sent. -/
def sendMessage {α : Type} (ws : Option WsReadyState)
    (message : WsClientMessage α) : Option (WsClientMessage α) :=
  match ws with
  | some WsReadyState.openReady => some message
  | _ => none

/-- The full outbound pipeline: envelope construction in the game
container followed by the provider's send. -/
def gameActionSend {α : Type} (ws : Option WsReadyState)
    (connectionStatus : ConnectionStatus) (roomId gameType : String)
    (action : α) : Option (WsClientMessage α) :=
  (containerHandleMakeMove connectionStatus roomId gameType action).bind
    (fun m => sendMessage ws m)

/-- Colour of a chess piece (`piece.color` from chess.js). -/
inductive PieceColor where
  | w
  | b
deriving DecidableEq

/-- The colour a `ChessGame` component instance controls
(`PlayerColor` in `components/games/chess.tsx`). -/
inductive PlayerColor where
  | w
  | b
  | spectator
deriving DecidableEq

/-- The strict string comparison `piece.color === playerColor` of the
source (true only when the player is the `w` or `b` player of the same
colour as the piece, never for a spectator). -/
def PlayerColor.matchesPiece : PlayerColor → PieceColor → Bool
  | PlayerColor.w, PieceColor.w => true
  | PlayerColor.b, PieceColor.b => true
  | _, _ => false

/-- Abstract interface to the external chess.js library used by
`components/games/chess.tsx`. `moveResult fen fromSq toSq promo` is
`game.move({from, to, promotion})` on the position `fen`: the fen after
the move when it is legal, `none` when `game.move` throws;
`pieceAt fen sq` is `game.get(sq)` as a (colour, type-letter) pair;
`turnOf fen` is `game.turn()`; `movesFrom fen sq` lists the target
squares of `game.moves({square, verbose: true})`. -/
structure ChessLib where
  moveResult : String → String → String → Char → Option String
  pieceAt : String → String → Option (PieceColor × Char)
  turnOf : String → PieceColor
  movesFrom : String → String → List String

/-- Payload of a chess `MAKE_MOVE` action (`ChessMovePayloadSchema`). -/
structure ChessMovePayload where
  move : String
deriving DecidableEq

/-- The chess action verbs (`ChessActionSchema`). -/
inductive ChessActionType where
  | MAKE_MOVE
  | RESIGN
deriving DecidableEq

/-- A chess action (`ChessAction` in `types/games/chess.types.ts`). -/
structure ChessAction where
  type : ChessActionType
  payload : Option ChessMovePayload
deriving DecidableEq

/-- The React state of the `ChessGame` component: the chess.js `game`
instance (identified by its current position), `boardPosition`,
`selectedSquare`, the keys of `highlightedSquares`, and
`promotionSquare`. -/
structure ChessUIState where
  gamePos : String
  boardPosition : String
  selectedSquare : Option String
  highlightedSquares : List String
  promotionSquare : Option (String × String)
deriving DecidableEq

/-- The component state right after mounting with the `fen` prop
(`useState(() => new Chess(fen))`, `useState(fen)`, remaining state
null/empty). -/
def initialChessState (fen : String) : ChessUIState :=
  { gamePos := fen, boardPosition := fen, selectedSquare := none,
    highlightedSquares := [], promotionSquare := none }

/-- The component's `isPromotionMove` (lines 79-87): the piece on the
source square is a pawn moving onto the last rank of its colour
(`to[1]` is the second character of the target square). -/
def isPromotionMove (lib : ChessLib) (fen fromSq toSq : String) : Bool :=
  match lib.pieceAt fen fromSq with
  | none => false
  | some piece =>
    if piece.2 ≠ 'p' then false
    else
      let toRank := toSq.toList.get? 1
      (decide (piece.1 = PieceColor.w) && decide (toRank = some '8')) ||
      (decide (piece.1 = PieceColor.b) && decide (toRank = some '1'))

/-- The `(promotion || "")` suffix of the emitted move string: the
one-character promotion letter, or the empty string. -/
def promoSuffix : Option Char → String
  | some p => String.mk [p]
  | none => ""

/-- The component's `executeMove` (lines 89-125). On an illegal move
(`game.move` throws, caught by `tryCatchSync`) the selection and
highlights are cleared and `false` is returned with no action; on a
legal move the game and board position advance to the new fen and a
`MAKE_MOVE` action is emitted whose move string is
`from + to + (promotion || "")`. The result is the new component
state, the action passed to `onMove` (if any), and the returned
boolean. -/
def executeMove (lib : ChessLib) (st : ChessUIState) (fromSq toSq : String)
    (promotion : Option Char) : ChessUIState × Option ChessAction × Bool :=
  match lib.moveResult st.gamePos fromSq toSq (promotion.getD 'q') with
  | none =>
    ({ st with selectedSquare := none, highlightedSquares := [] },
     none, false)
  | some newFen =>
    ({ st with gamePos := newFen, boardPosition := newFen,
               selectedSquare := none, highlightedSquares := [] },
     some { type := ChessActionType.MAKE_MOVE,
            payload := some { move := fromSq ++ toSq ++ promoSuffix promotion } },
     true)

/-- The component's `highlightPieceAndMoves` (lines 46-77): refuses for
spectators, for pieces of the other colour and out of turn; otherwise
selects the square and highlights it together with the legal target
squares. -/
def highlightPieceAndMoves (lib : ChessLib) (playerColor : PlayerColor)
    (st : ChessUIState) (square : String) (pieceColor : PieceColor) :
    ChessUIState × Bool :=
  if playerColor = PlayerColor.spectator ∨
      playerColor.matchesPiece pieceColor = false ∨
      lib.turnOf st.gamePos ≠ pieceColor then
    (st, false)
  else
    ({ st with selectedSquare := some square,
               highlightedSquares := square :: lib.movesFrom st.gamePos square },
     true)

/-- The component's `handlePieceDrag` (lines 127-138): clears the
promotion dialog, the selection and the highlights, then highlights the
dragged piece's moves. -/
def handlePieceDrag (lib : ChessLib) (playerColor : PlayerColor)
    (st : ChessUIState) (square : Option String) (pieceColor : PieceColor) :
    ChessUIState :=
  let cleared := { st with promotionSquare := none, selectedSquare := none,
                           highlightedSquares := [] }
  match square with
  | none => cleared
  | some sq => (highlightPieceAndMoves lib playerColor cleared sq pieceColor).1

/-- The component's `handlePieceDrop` (lines 140-159): rejects missing
or identical squares, pieces that are not the player's own, and routes
promotion moves to the promotion dialog instead of executing them. -/
def handlePieceDrop (lib : ChessLib) (playerColor : PlayerColor)
    (st : ChessUIState) :
    Option String → Option String → ChessUIState × Option ChessAction × Bool
  | some src, some tgt =>
    if src = tgt then (st, none, false)
    else
      match lib.pieceAt st.gamePos src with
      | none => (st, none, false)
      | some piece =>
        if playerColor.matchesPiece piece.1 = false then (st, none, false)
        else if isPromotionMove lib st.gamePos src tgt then
          ({ st with promotionSquare := some (src, tgt) }, none, false)
        else executeMove lib st src tgt none
  | _, _ => (st, none, false)

/-- The tail of `handleSquareClick` (lines 181-187): with a previously
selected square, a promotion move opens the promotion dialog, any other
move is executed. -/
def squareClickMoveAttempt (lib : ChessLib) (st : ChessUIState)
    (square : String) : ChessUIState × Option ChessAction :=
  match st.selectedSquare with
  | none => (st, none)
  | some sel =>
    if isPromotionMove lib st.gamePos sel square then
      ({ st with promotionSquare := some (sel, square) }, none)
    else
      ((executeMove lib st sel square none).1,
       (executeMove lib st sel square none).2.1)

/-- The component's `handleSquareClick` (lines 161-188); the promotion
dialog is closed first (`setPromotionSquare(null)`), written here by
updating the state record in place of the source's `st0`. -/
def handleSquareClick (lib : ChessLib) (playerColor : PlayerColor)
    (st : ChessUIState) (square : String) :
    ChessUIState × Option ChessAction :=
  if playerColor = PlayerColor.spectator then
    ({ st with promotionSquare := none }, none)
  else if st.selectedSquare = some square then
    ({ st with promotionSquare := none, selectedSquare := none,
               highlightedSquares := [] }, none)
  else
    match lib.pieceAt st.gamePos square with
    | some piece =>
      if playerColor.matchesPiece piece.1 &&
          decide (piece.1 = lib.turnOf st.gamePos) then
        ((highlightPieceAndMoves lib playerColor
            { st with promotionSquare := none } square piece.1).1, none)
      else
        squareClickMoveAttempt lib { st with promotionSquare := none } square
    | none =>
      squareClickMoveAttempt lib { st with promotionSquare := none } square

/-- The component's `handleCanDragPiece` (lines 190-197): spectators
cannot drag, players only their own pieces on their turn. -/
def handleCanDragPiece (lib : ChessLib) (playerColor : PlayerColor)
    (st : ChessUIState) (pieceColor : PieceColor) : Bool :=
  decide (playerColor ≠ PlayerColor.spectator) &&
  playerColor.matchesPiece pieceColor &&
  decide (pieceColor = lib.turnOf st.gamePos)

/-- The component's `handlePromotion` (lines 199-203): no-op without an
open promotion dialog; otherwise executes the stored move with the
chosen promotion piece and closes the dialog. -/
def handlePromotion (lib : ChessLib) (st : ChessUIState) (piece : Char) :
    ChessUIState × Option ChessAction :=
  match st.promotionSquare with
  | none => (st, none)
  | some pr =>
    ({ (executeMove lib st pr.1 pr.2 (some piece)).1 with
        promotionSquare := none },
     (executeMove lib st pr.1 pr.2 (some piece)).2.1)

/-- A user interaction with the mounted component. A drag gesture is
modelled atomically: react-chessboard consults `canDragPiece`, fires
`onPieceDrag` when the drag starts, and `onPieceDrop` with that drag's
square as source when it ends; no click can interleave. -/
inductive ChessEvent where
  | dragDrop (square : Option String) (pieceColor : PieceColor)
      (targetSquare : Option String)
  | squareClick (square : String)
  | promotionChoice (piece : Char)

/-- Well-formedness of the square names delivered by react-chessboard:
algebraic squares are two characters (file letter + rank digit). -/
def ChessEventOk : ChessEvent → Prop
  | ChessEvent.dragDrop square _ targetSquare =>
    (∀ s, square = some s → s.length = 2) ∧
    (∀ s, targetSquare = some s → s.length = 2)
  | ChessEvent.squareClick square => square.length = 2
  | ChessEvent.promotionChoice _ => True

/-- One step of the component under a user interaction: the new
component state together with the action passed to `onMove`, if any. -/
def chessStep (lib : ChessLib) (playerColor : PlayerColor)
    (st : ChessUIState) : ChessEvent → ChessUIState × Option ChessAction
  | ChessEvent.dragDrop square pieceColor targetSquare =>
    if handleCanDragPiece lib playerColor st pieceColor then
      ((handlePieceDrop lib playerColor
          (handlePieceDrag lib playerColor st square pieceColor)
          square targetSquare).1,
       (handlePieceDrop lib playerColor
          (handlePieceDrag lib playerColor st square pieceColor)
          square targetSquare).2.1)
    else (st, none)
  | ChessEvent.squareClick square => handleSquareClick lib playerColor st square
  | ChessEvent.promotionChoice piece => handlePromotion lib st piece

/-- Invariant of the component state: a pending promotion dialog stores
a move that is a promotion move at the current position, and all stored
square names are two characters. -/
def ChessInv (lib : ChessLib) (st : ChessUIState) : Prop :=
  (∀ pr : String × String, st.promotionSquare = some pr →
    isPromotionMove lib st.gamePos pr.1 pr.2 = true ∧
    pr.1.length = 2 ∧ pr.2.length = 2) ∧
  (∀ sq, st.selectedSquare = some sq → sq.length = 2)

/-- Component states reachable from mounting by well-formed user
interactions (the `fen` prop is fixed for the component's lifetime). -/
inductive ChessReachable (lib : ChessLib) (playerColor : PlayerColor) :
    ChessUIState → Prop where
  | init (fen : String) : ChessReachable lib playerColor (initialChessState fen)
  | step (st : ChessUIState) (ev : ChessEvent) :
      ChessReachable lib playerColor st → ChessEventOk ev →
      ChessReachable lib playerColor (chessStep lib playerColor st ev).1

/-- A concrete chess.js instance for witnesses: every move is legal,
g1 holds a white knight, white to move. -/
def chessLibWit : ChessLib :=
  { moveResult := fun _ fromSq toSq _ => some ("after-" ++ fromSq ++ toSq)
    pieceAt := fun _ sq =>
      if sq = "g1" then some (PieceColor.w, 'n') else none
    turnOf := fun _ => PieceColor.w
    movesFrom := fun _ _ => [] }

/-- A concrete chess.js instance on which every attempted move is
illegal (`game.move` always throws): e2 holds a white pawn, white to
move. -/
def chessLibIllegal : ChessLib :=
  { moveResult := fun _ _ _ _ => none
    pieceAt := fun _ sq =>
      if sq = "e2" then some (PieceColor.w, 'p') else none
    turnOf := fun _ => PieceColor.w
    movesFrom := fun _ _ => [] }

/-- A concrete component state with square e2 selected. -/
def chessSelState : ChessUIState :=
  { gamePos := "fen-1", boardPosition := "fen-1",
    selectedSquare := some "e2", highlightedSquares := ["e2"],
    promotionSquare := none }

/-- The action emitted by the witness drag of the knight g1 to f3. -/
def chessActionWit : ChessAction :=
  { type := ChessActionType.MAKE_MOVE, payload := some { move := "g1f3" } }

/-- The `handlePieceDrop` of the older chess component variant
(src/unnamed/part_016, lines 65-117): rejects missing squares
untouched; clears the selection and highlights for spectators, missing
pieces, wrong-colour pieces and identical squares; otherwise attempts
`game.move({from, to, promotion: "q"})` — the promotion is silently
forced to queen — and on success emits the bare
`sourceSquare + targetSquare` string to `onMove` and advances the board
position. This variant has no promotion dialog, so `promotionSquare`
is never touched. The result is the new component state, the string
passed to `onMove` (if any), and the returned boolean. -/
def part016HandlePieceDrop (lib : ChessLib) (playerColor : PlayerColor)
    (st : ChessUIState) :
    Option String → Option String → ChessUIState × Option String × Bool
  | some sourceSquare, some targetSquare =>
    match lib.pieceAt st.gamePos sourceSquare with
    | none =>
      ({ st with selectedSquare := none, highlightedSquares := [] },
       none, false)
    | some piece =>
      if playerColor = PlayerColor.spectator ∨
          playerColor.matchesPiece piece.1 = false then
        ({ st with selectedSquare := none, highlightedSquares := [] },
         none, false)
      else if sourceSquare = targetSquare then
        ({ st with selectedSquare := none, highlightedSquares := [] },
         none, false)
      else
        match lib.moveResult st.gamePos sourceSquare targetSquare 'q' with
        | none =>
          ({ st with selectedSquare := none, highlightedSquares := [] },
           none, false)
        | some newFen =>
          ({ st with gamePos := newFen, boardPosition := newFen,
                     selectedSquare := none, highlightedSquares := [] },
           some (sourceSquare ++ targetSquare), true)
  | _, _ => (st, none, false)

/-- A concrete chess.js instance where e7 holds a white pawn one step
from promotion, every attempted move is legal, and white is to move. -/
def promoLibWit : ChessLib :=
  { moveResult := fun _ fromSq toSq _ => some ("after-" ++ fromSq ++ toSq)
    pieceAt := fun _ sq =>
      if sq = "e7" then some (PieceColor.w, 'p') else none
    turnOf := fun _ => PieceColor.w
    movesFrom := fun _ _ => [] }

/-- C1: for every UltimateTicTacToe state whose `active_board` is
non-null, every action emitted by `handleCellClick` is a `PLACE_MARKER`
whose `(board_row, board_col)` equals `active_board`, and a click on any
other sub-board produces no action (that sub-board is not clickable and
the `ultimate-board.tsx` pipeline emits nothing for it either). -/
theorem C1_active_board_gating (s : UltimateTicTacToeState)
    (r c board_row board_col : Fin 3) (cellIndex : Fin 9)
    (hab : s.active_board = some (r, c)) :
    (∀ a, handleCellClick s board_row board_col cellIndex = some a →
      a.type = UltActionType.PLACE_MARKER ∧
      ∃ p, a.payload = some p ∧ p.board_row = r ∧ p.board_col = c) ∧
    (¬(board_row = r ∧ board_col = c) →
      handleCellClick s board_row board_col cellIndex = none ∧
      isBoardClickable s board_row board_col = false ∧
      ultimateBoardClick s board_row board_col cellIndex = none) := by
  constructor
  · intro a ha
    simp only [handleCellClick, hab] at ha
    split at ha
    · exact absurd ha (by simp)
    · rename_i hcond
      rw [Option.some.injEq] at ha
      subst ha
      refine ⟨rfl, _, rfl, ?_, ?_⟩
      · by_contra hner
        apply hcond
        have h' : r ≠ board_row := fun he => hner he.symm
        simp [h']
      · by_contra hnec
        apply hcond
        have h' : c ≠ board_col := fun he => hnec he.symm
        simp [h']
  · intro hne
    have hd : ¬board_row = r ∨ ¬board_col = c := not_and_or.mp hne
    have hclick : isBoardClickable s board_row board_col = false := by
      rcases hd with h | h
      · have h' : ¬r = board_row := fun he => h he.symm
        simp [isBoardClickable, hab, h']
      · have h' : ¬c = board_col := fun he => h he.symm
        simp [isBoardClickable, hab, h']
    refine ⟨?_, hclick, ?_⟩
    · rcases hd with h | h
      · have h' : r ≠ board_row := fun he => h he.symm
        simp [handleCellClick, hab, h']
      · have h' : c ≠ board_col := fun he => h he.symm
        simp [handleCellClick, hab, h']
    · simp [ultimateBoardClick, hclick]

/-- Closed witness for C1: with the centre sub-board active, a click on
sub-board (0,0) is rejected by every gate. -/
theorem C1_active_board_gating_witness :
    handleCellClick witState 0 0 0 = none ∧
    isBoardClickable witState 0 0 = false ∧
    ultimateBoardClick witState 0 0 0 = none :=
  (C1_active_board_gating witState 1 1 0 0 0 rfl).2 (by decide)

/-- C2: a sub-board with a non-null meta-board entry (won by `"X"` or
`"O"`, or drawn `"-"`) accepts no further marks: `handleCellClick`
emits no action for any cell of it, it is not clickable, and the
`ultimate-board.tsx` pipeline emits nothing for it. -/
theorem C2_decided_subboard_frozen (s : UltimateTicTacToeState)
    (board_row board_col : Fin 3) (m : Mark) (cellIndex : Fin 9)
    (h : s.meta_board board_row board_col = some m) :
    handleCellClick s board_row board_col cellIndex = none ∧
    isBoardClickable s board_row board_col = false ∧
    ultimateBoardClick s board_row board_col cellIndex = none := by
  have hw : (s.meta_board board_row board_col).isSome = true := by simp [h]
  have hclick : isBoardClickable s board_row board_col = false := by
    simp [isBoardClickable, hw]
  refine ⟨?_, hclick, ?_⟩
  · simp [handleCellClick, hw]
  · simp [ultimateBoardClick, hclick]

/-- Closed witness for C2 at the won sub-board (1,1) of
`wonTargetState`. -/
theorem C2_decided_subboard_frozen_witness :
    handleCellClick wonTargetState 1 1 0 = none ∧
    isBoardClickable wonTargetState 1 1 = false ∧
    ultimateBoardClick wonTargetState 1 1 0 = none :=
  C2_decided_subboard_frozen wonTargetState 1 1 Mark.X 0 (by decide)

/-- C3: evaluation at the failing input. In `wonTargetState` sub-board
(1,1) is already won by X, yet after the accepted `PLACE_MARKER` at
cell (1,1) of sub-board (0,0) the demo handler `handleMakeMove` sets
`active_board` to `[1,1]` — not to null as the claim (and the
repository's own rules document, rule 5) requires. -/
theorem C3_active_board_not_nulled_on_won_target :
    wonTargetState.meta_board 1 1 = some Mark.X ∧
    handleCellClick wonTargetState 0 0 4 = some wonTargetAction ∧
    (handleMakeMove wonTargetState wonTargetAction).map
      (fun s => s.active_board) = some (some (1, 1)) := by
  refine ⟨by decide, by decide, by decide⟩

/-- C4: a finished game accepts nothing: the demo move handler returns
without producing a new state for every action, and every sub-board is
non-clickable. -/
theorem C4_finished_accepts_nothing (s : UltimateTicTacToeState)
    (h : s.finished = true) :
    (∀ a, handleMakeMove s a = none) ∧
    (∀ board_row board_col : Fin 3,
      isBoardClickable s board_row board_col = false) := by
  constructor
  · intro a
    simp [handleMakeMove, h]
  · intro board_row board_col
    simp [isBoardClickable, h]

/-- Closed witness for C4 on a concrete finished state. -/
theorem C4_finished_accepts_nothing_witness :
    handleMakeMove finishedState wonTargetAction = none ∧
    isBoardClickable finishedState 0 0 = false :=
  ⟨(C4_finished_accepts_nothing finishedState rfl).1 wonTargetAction,
   (C4_finished_accepts_nothing finishedState rfl).2 0 0⟩

/-- C6: on every accepted action the demo handler increments the turn
counter by one and advances the current player index to
`(old index + 1) % player count`. -/
theorem C6_turn_and_player_advance (s s' : UltimateTicTacToeState)
    (a : UltimateTicTacToeAction) (t : Int) (ht : s.turn = some t)
    (h : handleMakeMove s a = some s') :
    s'.turn = some (t + 1) ∧
    s'.curr_player_index = (s.curr_player_index + 1) % s.player_ids.length := by
  obtain ⟨ty, pl⟩ := a
  unfold handleMakeMove at h
  split at h
  · exact absurd h (by simp)
  · cases pl with
    | none => exact absurd h (by simp)
    | some p =>
      simp only [Option.some.injEq] at h
      subst h
      refine ⟨?_, rfl⟩
      simp [ht]

/-- Closed witness for C6: the accepted move on `freshState` advances
the turn from 1 to 2 and the player index from 0 to 1. -/
theorem C6_turn_and_player_advance_witness :
    freshStateAfter.turn = some (1 + 1) ∧
    freshStateAfter.curr_player_index =
      (freshState.curr_player_index + 1) % freshState.player_ids.length :=
  C6_turn_and_player_advance freshState freshStateAfter wonTargetAction 1 rfl
    rfl

/-- C8: everything the outbound pipeline actually sends is the
`game_action` envelope around the untouched game action, with the
container's room id and game type, and nothing is sent unless the
connection status is `connected`. -/
theorem C8_game_action_envelope {α : Type} (ws : Option WsReadyState)
    (cs : ConnectionStatus) (roomId gameType : String) (action : α) :
    (∀ m, gameActionSend ws cs roomId gameType action = some m →
      cs = ConnectionStatus.connected ∧ m.type = "game_action" ∧
      m.payload.room_id = roomId ∧ m.payload.game_type = gameType ∧
      m.payload.action = action) ∧
    (cs ≠ ConnectionStatus.connected →
      gameActionSend ws cs roomId gameType action = none) := by
  have hnone : cs ≠ ConnectionStatus.connected →
      gameActionSend ws cs roomId gameType action = none := by
    intro h
    simp [gameActionSend, containerHandleMakeMove, h]
  refine ⟨?_, hnone⟩
  intro m hm
  by_cases hcs : cs = ConnectionStatus.connected
  · subst hcs
    refine ⟨rfl, ?_⟩
    have hbind : gameActionSend ws ConnectionStatus.connected roomId gameType
        action = sendMessage ws
          { type := "game_action",
            payload := { room_id := roomId, game_type := gameType,
                         action := action } } := by
      simp [gameActionSend, containerHandleMakeMove]
    rw [hbind] at hm
    cases ws with
    | none => simp [sendMessage] at hm
    | some rs =>
      cases rs with
      | openReady =>
        rw [sendMessage, Option.some.injEq] at hm
        subst hm
        exact ⟨rfl, rfl, rfl, rfl⟩
      | connecting => simp [sendMessage] at hm
      | closing => simp [sendMessage] at hm
      | closed => simp [sendMessage] at hm
  · rw [hnone hcs] at hm
    exact absurd hm (by simp)

/-- Closed witness for C8 at a concrete open connection. -/
theorem C8_game_action_envelope_witness :
    ConnectionStatus.connected = ConnectionStatus.connected ∧
    ({ type := "game_action",
       payload := { room_id := "room-1", game_type := "ulttt",
                    action := (7 : Nat) } } : WsClientMessage Nat).type =
      "game_action" ∧
    ({ type := "game_action",
       payload := { room_id := "room-1", game_type := "ulttt",
                    action := (7 : Nat) } } :
        WsClientMessage Nat).payload.room_id = "room-1" ∧
    ({ type := "game_action",
       payload := { room_id := "room-1", game_type := "ulttt",
                    action := (7 : Nat) } } :
        WsClientMessage Nat).payload.game_type = "ulttt" ∧
    ({ type := "game_action",
       payload := { room_id := "room-1", game_type := "ulttt",
                    action := (7 : Nat) } } :
        WsClientMessage Nat).payload.action = 7 :=
  (C8_game_action_envelope (some WsReadyState.openReady)
    ConnectionStatus.connected "room-1" "ulttt" (7 : Nat)).1 _ rfl

/-- C9 counterexample: the value `"ulttt"` is accepted by the room
schema's game-type enum although it is not one of the four values
`chess | tic_tac_toe | ultimate_tic_tac_toe | lands` the claim names
(and conversely `"tic_tac_toe"` from the claimed set is rejected). -/
theorem C9_counterexample :
    roomGameTypeValid "ulttt" = true ∧ "ulttt" ∉ specGameTypeValues ∧
    roomGameTypeValid "tic_tac_toe" = false ∧
    "tic_tac_toe" ∈ specGameTypeValues := by decide

/-- C9 (amended): a room's configured game type is valid exactly when
it is one of the three enum values `ulttt | chess | lands`; everything
else is rejected by the schema. -/
theorem C9_room_game_type_enum (gameType : String) :
    roomGameTypeValid gameType = true ↔
      (gameType = "ulttt" ∨ gameType = "chess" ∨ gameType = "lands") := by
  unfold roomGameTypeValid roomGameTypeValues
  simp

/-- C10: a validated game state's phase descriptor always has a
non-empty `available_phases` list containing its `current` phase, and
every phase violating either condition fails `PhaseSchema`
validation. -/
theorem C10_phase_validation :
    (∀ (gs : GameState) (p : Phase), gameStateValid gs = true →
      gs.phase = some p →
      p.available_phases ≠ [] ∧ p.current ∈ p.available_phases) ∧
    (∀ p : Phase,
      p.available_phases = [] ∨ p.current ∉ p.available_phases →
      phaseValid p = false) := by
  have hvalid : ∀ p : Phase, phaseValid p = true ↔
      (p.available_phases ≠ [] ∧ p.current ∈ p.available_phases) := by
    intro p
    unfold phaseValid
    rw [Bool.and_eq_true, decide_eq_true_iff]
    constructor
    · rintro ⟨h1, h2⟩
      refine ⟨?_, by simpa using h2⟩
      intro hnil
      rw [hnil] at h1
      simp at h1
    · rintro ⟨h1, h2⟩
      refine ⟨?_, by simpa using h2⟩
      have := List.length_pos.mpr h1
      omega
  constructor
  · intro gs p hgs hp
    refine (hvalid p).mp ?_
    unfold gameStateValid at hgs
    rw [hp, Bool.and_eq_true, Bool.and_eq_true] at hgs
    exact hgs.2
  · intro p hp
    rcases Bool.eq_false_or_eq_true (phaseValid p) with h | h
    · exfalso
      have hc := (hvalid p).mp h
      rcases hp with h1 | h1
      · exact hc.1 h1
      · exact h1 hc.2
    · exact h

/-- Closed witness for C10 on a concrete validated game state. -/
theorem C10_phase_validation_witness :
    phaseWit.available_phases ≠ [] ∧
    phaseWit.current ∈ phaseWit.available_phases :=
  C10_phase_validation.1 gameStateWit phaseWit (by decide) rfl

theorem executeMove_fields (lib : ChessLib) (st : ChessUIState)
    (fromSq toSq : String) (promotion : Option Char) :
    (executeMove lib st fromSq toSq promotion).1.selectedSquare = none ∧
    (executeMove lib st fromSq toSq promotion).1.promotionSquare =
      st.promotionSquare := by
  unfold executeMove
  cases lib.moveResult st.gamePos fromSq toSq (promotion.getD 'q') <;> simp

theorem executeMove_emit (lib : ChessLib) (st : ChessUIState)
    (fromSq toSq : String) (promotion : Option Char) (a : ChessAction)
    (h : (executeMove lib st fromSq toSq promotion).2.1 = some a) :
    a.type = ChessActionType.MAKE_MOVE ∧
    a.payload = some { move := fromSq ++ toSq ++ promoSuffix promotion } := by
  unfold executeMove at h
  revert h
  cases lib.moveResult st.gamePos fromSq toSq (promotion.getD 'q') with
  | none => intro h; simp at h
  | some newFen =>
    intro h
    simp only [Option.some.injEq] at h
    subst h
    exact ⟨rfl, rfl⟩

theorem highlightPieceAndMoves_fields (lib : ChessLib)
    (playerColor : PlayerColor) (st : ChessUIState) (square : String)
    (pieceColor : PieceColor) :
    (highlightPieceAndMoves lib playerColor st square pieceColor).1.gamePos =
      st.gamePos ∧
    (highlightPieceAndMoves lib playerColor st square
      pieceColor).1.promotionSquare = st.promotionSquare ∧
    ((highlightPieceAndMoves lib playerColor st square
        pieceColor).1.selectedSquare = st.selectedSquare ∨
      (highlightPieceAndMoves lib playerColor st square
        pieceColor).1.selectedSquare = some square) := by
  unfold highlightPieceAndMoves
  split <;> simp

theorem handlePieceDrag_fields (lib : ChessLib) (playerColor : PlayerColor)
    (st : ChessUIState) (square : Option String) (pieceColor : PieceColor) :
    (handlePieceDrag lib playerColor st square pieceColor).gamePos =
      st.gamePos ∧
    (handlePieceDrag lib playerColor st square pieceColor).promotionSquare =
      none ∧
    ((handlePieceDrag lib playerColor st square pieceColor).selectedSquare =
        none ∨
      ∃ s, square = some s ∧
        (handlePieceDrag lib playerColor st square pieceColor).selectedSquare =
          some s) := by
  cases square with
  | none => simp [handlePieceDrag]
  | some s =>
    obtain ⟨h1, h2, h3⟩ := highlightPieceAndMoves_fields lib playerColor
      { st with promotionSquare := none, selectedSquare := none,
                highlightedSquares := [] } s pieceColor
    refine ⟨by simpa using h1, by simpa using h2, ?_⟩
    rcases h3 with h3 | h3
    · exact Or.inl (by simpa using h3)
    · exact Or.inr ⟨s, rfl, h3⟩

theorem handlePieceDrop_cases (lib : ChessLib) (playerColor : PlayerColor)
    (st1 : ChessUIState) (sq tgt : Option String) :
    handlePieceDrop lib playerColor st1 sq tgt = (st1, none, false) ∨
    (∃ src t, sq = some src ∧ tgt = some t ∧
      isPromotionMove lib st1.gamePos src t = true ∧
      handlePieceDrop lib playerColor st1 sq tgt =
        ({ st1 with promotionSquare := some (src, t) }, none, false)) ∨
    (∃ src t, sq = some src ∧ tgt = some t ∧
      isPromotionMove lib st1.gamePos src t = false ∧
      handlePieceDrop lib playerColor st1 sq tgt =
        executeMove lib st1 src t none) := by
  cases sq with
  | none => left; cases tgt <;> rfl
  | some src =>
    cases tgt with
    | none => left; rfl
    | some t =>
      rw [handlePieceDrop]
      split
      · exact Or.inl rfl
      · cases hpa : lib.pieceAt st1.gamePos src with
        | none => exact Or.inl rfl
        | some piece =>
          dsimp only
          by_cases hmp : playerColor.matchesPiece piece.1 = false
          · rw [if_pos hmp]
            exact Or.inl rfl
          · rw [if_neg hmp]
            by_cases hpm : isPromotionMove lib st1.gamePos src t = true
            · rw [if_pos hpm]
              exact Or.inr (Or.inl ⟨src, t, rfl, rfl, hpm, rfl⟩)
            · rw [if_neg hpm]
              refine Or.inr (Or.inr ⟨src, t, rfl, rfl, ?_, rfl⟩)
              exact Bool.not_eq_true _ ▸ hpm

theorem handlePieceDrop_inv (lib : ChessLib) (playerColor : PlayerColor)
    (st1 : ChessUIState) (sq tgt : Option String)
    (hp : st1.promotionSquare = none)
    (hsel : ∀ s, st1.selectedSquare = some s → s.length = 2)
    (hsq : ∀ s, sq = some s → s.length = 2)
    (htgt : ∀ s, tgt = some s → s.length = 2) :
    ChessInv lib (handlePieceDrop lib playerColor st1 sq tgt).1 := by
  have hbase : ChessInv lib st1 := by
    refine ⟨fun pr hpr => ?_, hsel⟩
    rw [hp] at hpr
    exact absurd hpr (by simp)
  rcases handlePieceDrop_cases lib playerColor st1 sq tgt with
      h | ⟨src, t, h1, h2, h3, h4⟩ | ⟨src, t, h1, h2, h3, h4⟩
  · rw [h]; exact hbase
  · rw [h4]
    constructor
    · intro pr hpr
      simp only [Option.some.injEq] at hpr
      subst hpr
      exact ⟨h3, hsq src h1, htgt t h2⟩
    · intro s hs
      exact hsel s hs
  · rw [h4]
    obtain ⟨he1, he2⟩ := executeMove_fields lib st1 src t none
    constructor
    · intro pr hpr
      rw [he2, hp] at hpr
      exact absurd hpr (by simp)
    · intro s hs
      rw [he1] at hs
      exact absurd hs (by simp)

theorem handlePieceDrop_emit (lib : ChessLib) (playerColor : PlayerColor)
    (st1 : ChessUIState) (sq tgt : Option String) (a : ChessAction)
    (hsq : ∀ s, sq = some s → s.length = 2)
    (htgt : ∀ s, tgt = some s → s.length = 2)
    (h : (handlePieceDrop lib playerColor st1 sq tgt).2.1 = some a) :
    a.type = ChessActionType.MAKE_MOVE ∧
    ∃ fromSq toSq, a.payload = some { move := fromSq ++ toSq ++ "" } ∧
      fromSq.length = 2 ∧ toSq.length = 2 ∧
      isPromotionMove lib st1.gamePos fromSq toSq = false := by
  rcases handlePieceDrop_cases lib playerColor st1 sq tgt with
      hc | ⟨src, t, h1, h2, h3, h4⟩ | ⟨src, t, h1, h2, h3, h4⟩
  · rw [hc] at h; exact absurd h (by simp)
  · rw [h4] at h; exact absurd h (by simp)
  · rw [h4] at h
    obtain ⟨ha1, ha2⟩ := executeMove_emit lib st1 src t none a h
    exact ⟨ha1, src, t, ha2, hsq src h1, htgt t h2, h3⟩

theorem squareClickMoveAttempt_inv (lib : ChessLib) (st0 : ChessUIState)
    (square : String)
    (hp : st0.promotionSquare = none)
    (hsel : ∀ s, st0.selectedSquare = some s → s.length = 2)
    (hsq : square.length = 2) :
    ChessInv lib (squareClickMoveAttempt lib st0 square).1 := by
  unfold squareClickMoveAttempt
  cases hs : st0.selectedSquare with
  | none =>
    refine ⟨fun pr hpr => ?_, hsel⟩
    rw [hp] at hpr
    exact absurd hpr (by simp)
  | some sel =>
    dsimp only
    by_cases hpm : isPromotionMove lib st0.gamePos sel square = true
    · rw [if_pos hpm]
      constructor
      · intro pr hpr
        simp only [Option.some.injEq] at hpr
        subst hpr
        exact ⟨hpm, hsel sel hs, hsq⟩
      · intro s hs2
        have hss : sel = s := by simpa using hs2
        subst hss
        exact hsel sel hs
    · rw [if_neg hpm]
      obtain ⟨he1, he2⟩ := executeMove_fields lib st0 sel square none
      constructor
      · intro pr hpr
        rw [he2, hp] at hpr
        exact absurd hpr (by simp)
      · intro s hs2
        rw [he1] at hs2
        exact absurd hs2 (by simp)

theorem squareClickMoveAttempt_emit (lib : ChessLib) (st0 : ChessUIState)
    (square : String) (a : ChessAction)
    (hsel : ∀ s, st0.selectedSquare = some s → s.length = 2)
    (hsq : square.length = 2)
    (h : (squareClickMoveAttempt lib st0 square).2 = some a) :
    a.type = ChessActionType.MAKE_MOVE ∧
    ∃ fromSq toSq, a.payload = some { move := fromSq ++ toSq ++ "" } ∧
      fromSq.length = 2 ∧ toSq.length = 2 ∧
      isPromotionMove lib st0.gamePos fromSq toSq = false := by
  unfold squareClickMoveAttempt at h
  revert h
  cases hs : st0.selectedSquare with
  | none =>
    intro h
    exact absurd h (by simp)
  | some sel =>
    dsimp only
    by_cases hpm : isPromotionMove lib st0.gamePos sel square = true
    · rw [if_pos hpm]
      intro h
      exact absurd h (by simp)
    · rw [if_neg hpm]
      intro h
      obtain ⟨ha1, ha2⟩ := executeMove_emit lib st0 sel square none a h
      exact ⟨ha1, sel, square, ha2, hsel sel hs, hsq,
        Bool.not_eq_true _ ▸ hpm⟩

theorem handleSquareClick_inv (lib : ChessLib) (playerColor : PlayerColor)
    (st : ChessUIState) (square : String)
    (hsel : ∀ s, st.selectedSquare = some s → s.length = 2)
    (hsq : square.length = 2) :
    ChessInv lib (handleSquareClick lib playerColor st square).1 := by
  unfold handleSquareClick
  by_cases hspec : playerColor = PlayerColor.spectator
  · rw [if_pos hspec]
    exact ⟨fun pr hpr => absurd hpr (by simp), fun s hs => hsel s hs⟩
  · rw [if_neg hspec]
    by_cases hdesel : st.selectedSquare = some square
    · rw [if_pos hdesel]
      exact ⟨fun pr hpr => absurd hpr (by simp),
             fun s hs => absurd hs (by simp)⟩
    · rw [if_neg hdesel]
      cases hpa : lib.pieceAt st.gamePos square with
      | none => exact squareClickMoveAttempt_inv lib _ square rfl hsel hsq
      | some piece =>
        dsimp only
        by_cases hturn : (playerColor.matchesPiece piece.1 &&
            decide (piece.1 = lib.turnOf st.gamePos)) = true
        · rw [if_pos hturn]
          obtain ⟨hh1, hh2, hh3⟩ := highlightPieceAndMoves_fields lib
            playerColor { st with promotionSquare := none } square piece.1
          constructor
          · intro pr hpr
            rw [hh2] at hpr
            exact absurd hpr (by simp)
          · intro s hs
            rcases hh3 with h3 | h3
            · rw [h3] at hs
              exact hsel s hs
            · rw [h3] at hs
              simp only [Option.some.injEq] at hs
              subst hs
              exact hsq
        · rw [if_neg hturn]
          exact squareClickMoveAttempt_inv lib _ square rfl hsel hsq

theorem handleSquareClick_emit (lib : ChessLib) (playerColor : PlayerColor)
    (st : ChessUIState) (square : String) (a : ChessAction)
    (hsel : ∀ s, st.selectedSquare = some s → s.length = 2)
    (hsq : square.length = 2)
    (h : (handleSquareClick lib playerColor st square).2 = some a) :
    a.type = ChessActionType.MAKE_MOVE ∧
    ∃ fromSq toSq, a.payload = some { move := fromSq ++ toSq ++ "" } ∧
      fromSq.length = 2 ∧ toSq.length = 2 ∧
      isPromotionMove lib st.gamePos fromSq toSq = false := by
  unfold handleSquareClick at h
  by_cases hspec : playerColor = PlayerColor.spectator
  · rw [if_pos hspec] at h
    exact absurd h (by simp)
  · rw [if_neg hspec] at h
    by_cases hdesel : st.selectedSquare = some square
    · rw [if_pos hdesel] at h
      exact absurd h (by simp)
    · rw [if_neg hdesel] at h
      revert h
      cases hpa : lib.pieceAt st.gamePos square with
      | none =>
        intro h
        dsimp only at h
        exact squareClickMoveAttempt_emit lib
          { st with promotionSquare := none } square a hsel hsq h
      | some piece =>
        dsimp only
        by_cases hturn : (playerColor.matchesPiece piece.1 &&
            decide (piece.1 = lib.turnOf st.gamePos)) = true
        · rw [if_pos hturn]
          intro h
          exact absurd h (by simp)
        · rw [if_neg hturn]
          intro h
          exact squareClickMoveAttempt_emit lib
            { st with promotionSquare := none } square a hsel hsq h

theorem chessStep_preserves_inv (lib : ChessLib) (playerColor : PlayerColor)
    (st : ChessUIState) (ev : ChessEvent)
    (hinv : ChessInv lib st) (hev : ChessEventOk ev) :
    ChessInv lib (chessStep lib playerColor st ev).1 := by
  obtain ⟨hP, hS⟩ := hinv
  cases ev with
  | dragDrop sq pcol tgt =>
    obtain ⟨hev1, hev2⟩ := hev
    rw [chessStep]
    by_cases hcan : handleCanDragPiece lib playerColor st pcol = true
    · rw [if_pos hcan]
      obtain ⟨hd1, hd2, hd3⟩ := handlePieceDrag_fields lib playerColor st sq pcol
      show ChessInv lib (handlePieceDrop lib playerColor
        (handlePieceDrag lib playerColor st sq pcol) sq tgt).1
      refine handlePieceDrop_inv lib playerColor _ sq tgt hd2 ?_ hev1 hev2
      intro s hs
      rcases hd3 with h3 | ⟨s', hs', h3⟩
      · rw [h3] at hs
        exact absurd hs (by simp)
      · rw [h3] at hs
        simp only [Option.some.injEq] at hs
        subst hs
        exact hev1 s' hs'
    · rw [if_neg hcan]
      exact ⟨hP, hS⟩
  | squareClick square =>
    exact handleSquareClick_inv lib playerColor st square hS hev
  | promotionChoice p =>
    rw [chessStep]
    unfold handlePromotion
    cases hpr : st.promotionSquare with
    | none => exact ⟨hP, hS⟩
    | some pr =>
      dsimp only
      constructor
      · intro pr' hpr'
        exact absurd hpr' (by simp)
      · intro s hs
        have he1 : ({ (executeMove lib st pr.1 pr.2 (some p)).1 with
            promotionSquare := none } : ChessUIState).selectedSquare = none :=
          (executeMove_fields lib st pr.1 pr.2 (some p)).1
        rw [he1] at hs
        exact absurd hs (by simp)

theorem chessStep_emit_format (lib : ChessLib) (playerColor : PlayerColor)
    (st : ChessUIState) (ev : ChessEvent) (a : ChessAction)
    (hinv : ChessInv lib st) (hev : ChessEventOk ev)
    (h : (chessStep lib playerColor st ev).2 = some a) :
    a.type = ChessActionType.MAKE_MOVE ∧
    ∃ fromSq toSq promo,
      a.payload = some { move := fromSq ++ toSq ++ promo } ∧
      fromSq.length = 2 ∧ toSq.length = 2 ∧
      ((promo = "" ∧ isPromotionMove lib st.gamePos fromSq toSq = false) ∨
        ((∃ ch, promo = String.mk [ch]) ∧
          isPromotionMove lib st.gamePos fromSq toSq = true)) := by
  obtain ⟨hP, hS⟩ := hinv
  cases ev with
  | dragDrop sq pcol tgt =>
    obtain ⟨hev1, hev2⟩ := hev
    rw [chessStep] at h
    by_cases hcan : handleCanDragPiece lib playerColor st pcol = true
    · rw [if_pos hcan] at h
      obtain ⟨hd1, hd2, hd3⟩ := handlePieceDrag_fields lib playerColor st sq pcol
      obtain ⟨ha1, fromSq, toSq, hpl, hf, ht, hpm⟩ :=
        handlePieceDrop_emit lib playerColor
          (handlePieceDrag lib playerColor st sq pcol) sq tgt a hev1 hev2 h
      rw [hd1] at hpm
      exact ⟨ha1, fromSq, toSq, "", hpl, hf, ht, Or.inl ⟨rfl, hpm⟩⟩
    · rw [if_neg hcan] at h
      exact absurd h (by simp)
  | squareClick square =>
    obtain ⟨ha1, fromSq, toSq, hpl, hf, ht2, hpm⟩ :=
      handleSquareClick_emit lib playerColor st square a hS hev h
    exact ⟨ha1, fromSq, toSq, "", hpl, hf, ht2, Or.inl ⟨rfl, hpm⟩⟩
  | promotionChoice p =>
    rw [chessStep] at h
    unfold handlePromotion at h
    revert h
    cases hpr : st.promotionSquare with
    | none =>
      intro h
      exact absurd h (by simp)
    | some pr =>
      dsimp only
      intro h
      obtain ⟨ha1, ha2⟩ := executeMove_emit lib st pr.1 pr.2 (some p) a h
      obtain ⟨hpm, hl1, hl2⟩ := hP pr hpr
      exact ⟨ha1, pr.1, pr.2, String.mk [p], ha2, hl1, hl2,
        Or.inr ⟨⟨p, rfl⟩, hpm⟩⟩

theorem chessInv_of_reachable (lib : ChessLib) (playerColor : PlayerColor)
    (st : ChessUIState) (h : ChessReachable lib playerColor st) :
    ChessInv lib st := by
  induction h with
  | init fen =>
    exact ⟨fun pr hpr => absurd hpr (by simp [initialChessState]),
           fun s hs => absurd hs (by simp [initialChessState])⟩
  | step st ev hre hev ih =>
    exact chessStep_preserves_inv lib playerColor st ev ih hev

/-- C5 counterexample: with square e2 selected, clicking e5 attempts
the illegal move e2-e5; it is rejected (no action is emitted, the board
position is unchanged) but the selection is cleared, so the state is
not left unchanged as the claim asserts. -/
theorem C5_counterexample :
    chessSelState.selectedSquare = some "e2" ∧
    (chessStep chessLibIllegal PlayerColor.w chessSelState
      (ChessEvent.squareClick "e5")).2 = none ∧
    (chessStep chessLibIllegal PlayerColor.w chessSelState
      (ChessEvent.squareClick "e5")).1.boardPosition =
      chessSelState.boardPosition ∧
    (chessStep chessLibIllegal PlayerColor.w chessSelState
      (ChessEvent.squareClick "e5")).1.selectedSquare = none := by
  refine ⟨rfl, ?_, ?_, ?_⟩ <;> decide

/-- C5 (amended): a rejected move emits no action, returns false and
leaves the game and board position unchanged, though it clears the
selection and the highlights; an accepted move is fully applied (both
positions advance to the new fen, the `MAKE_MOVE` action is emitted,
true is returned); a drop of a piece that is not the player's own is
rejected with the entire state unchanged; and when `canDragPiece`
refuses (out of turn, wrong colour or spectator) a drag interaction
leaves the state unchanged and emits nothing. -/
theorem C5_atomicity (lib : ChessLib) (playerColor : PlayerColor)
    (st : ChessUIState) (fromSq toSq : String) (promotion : Option Char) :
    (lib.moveResult st.gamePos fromSq toSq (promotion.getD 'q') = none →
      (executeMove lib st fromSq toSq promotion).2.1 = none ∧
      (executeMove lib st fromSq toSq promotion).2.2 = false ∧
      (executeMove lib st fromSq toSq promotion).1.gamePos = st.gamePos ∧
      (executeMove lib st fromSq toSq promotion).1.boardPosition =
        st.boardPosition ∧
      (executeMove lib st fromSq toSq promotion).1.selectedSquare = none ∧
      (executeMove lib st fromSq toSq promotion).1.highlightedSquares = []) ∧
    (∀ newFen,
      lib.moveResult st.gamePos fromSq toSq (promotion.getD 'q') =
        some newFen →
      (executeMove lib st fromSq toSq promotion).1.gamePos = newFen ∧
      (executeMove lib st fromSq toSq promotion).1.boardPosition = newFen ∧
      (executeMove lib st fromSq toSq promotion).2.1 =
        some { type := ChessActionType.MAKE_MOVE,
               payload :=
                 some { move := fromSq ++ toSq ++ promoSuffix promotion } } ∧
      (executeMove lib st fromSq toSq promotion).2.2 = true) ∧
    (∀ piece, lib.pieceAt st.gamePos fromSq = some piece →
      playerColor.matchesPiece piece.1 = false →
      handlePieceDrop lib playerColor st (some fromSq) (some toSq) =
        (st, none, false)) ∧
    (∀ sq pcol tgt, handleCanDragPiece lib playerColor st pcol = false →
      chessStep lib playerColor st (ChessEvent.dragDrop sq pcol tgt) =
        (st, none)) := by
  refine ⟨?_, ?_, ?_, ?_⟩
  · intro hm
    unfold executeMove
    rw [hm]
    exact ⟨rfl, rfl, rfl, rfl, rfl, rfl⟩
  · intro newFen hm
    unfold executeMove
    rw [hm]
    exact ⟨rfl, rfl, rfl, rfl⟩
  · intro piece hpa hmp
    rw [handlePieceDrop]
    by_cases hst : fromSq = toSq
    · rw [if_pos hst]
    · rw [if_neg hst, hpa]
      dsimp only
      rw [if_pos hmp]
  · intro sq pcol tgt hcan
    rw [chessStep, if_neg]
    rw [hcan]
    exact Bool.false_ne_true

/-- Closed witness for C5 (amended): the always-illegal library rejects
e2-e5 and the state keeps its board position while clearing the
selection; the wrong-colour drop and refused drag leave the state
unchanged. -/
theorem C5_atomicity_witness :
    ((executeMove chessLibIllegal chessSelState "e2" "e5" none).2.1 = none ∧
     (executeMove chessLibIllegal chessSelState "e2" "e5" none).2.2 = false ∧
     (executeMove chessLibIllegal chessSelState "e2" "e5" none).1.gamePos =
       chessSelState.gamePos ∧
     (executeMove chessLibIllegal chessSelState "e2" "e5" none).1.boardPosition =
       chessSelState.boardPosition ∧
     (executeMove chessLibIllegal chessSelState "e2" "e5" none).1.selectedSquare =
       none ∧
     (executeMove chessLibIllegal chessSelState "e2" "e5" none).1.highlightedSquares =
       []) ∧
    chessStep chessLibIllegal PlayerColor.b chessSelState
      (ChessEvent.dragDrop (some "e2") PieceColor.w (some "e4")) =
      (chessSelState, none) :=
  ⟨(C5_atomicity chessLibIllegal PlayerColor.w chessSelState "e2" "e5" none).1
      rfl,
   (C5_atomicity chessLibIllegal PlayerColor.b chessSelState "e2" "e5"
      none).2.2.2 (some "e2") PieceColor.w (some "e4") (by decide)⟩

/-- C7 counterexample: in the cited variant src/unnamed/part_016,
dragging the white pawn from e7 to e8 is a pawn-promotion move (the
piece on the source square is a pawn moving onto rank 8), yet the
emitted move string is the bare four-character `"e7e8"` with no
promotion letter — the promotion is silently forced to queen inside
`game.move` and never recorded in the emitted move. -/
theorem C7_counterexample :
    isPromotionMove promoLibWit (initialChessState "fen-2").gamePos
      "e7" "e8" = true ∧
    (part016HandlePieceDrop promoLibWit PlayerColor.w
      (initialChessState "fen-2") (some "e7") (some "e8")).2.1 =
      some "e7e8" ∧
    ("e7e8" : String).length = 4 := by
  refine ⟨by decide, by decide, by decide⟩

/-- C7 (amended): every action the `components/games/chess.tsx`
component emits from a reachable state is a `MAKE_MOVE` whose move
string is the two-character source square, the two-character target
square, and exactly one promotion letter if and only if the move is a
pawn promotion at the current position; the older variant
src/unnamed/part_016, by contrast, emits every accepted drag move as
the bare source-plus-target string, never appending a promotion
letter. -/
theorem C7_move_format :
    (∀ (lib : ChessLib) (playerColor : PlayerColor) (st : ChessUIState)
        (ev : ChessEvent) (a : ChessAction),
      ChessReachable lib playerColor st → ChessEventOk ev →
      (chessStep lib playerColor st ev).2 = some a →
      a.type = ChessActionType.MAKE_MOVE ∧
      ∃ fromSq toSq promo,
        a.payload = some { move := fromSq ++ toSq ++ promo } ∧
        fromSq.length = 2 ∧ toSq.length = 2 ∧
        ((promo = "" ∧ isPromotionMove lib st.gamePos fromSq toSq = false) ∨
          ((∃ ch, promo = String.mk [ch]) ∧
            isPromotionMove lib st.gamePos fromSq toSq = true))) ∧
    (∀ (lib : ChessLib) (playerColor : PlayerColor) (st : ChessUIState)
        (src tgt : Option String) (moveStr : String),
      (part016HandlePieceDrop lib playerColor st src tgt).2.1 =
        some moveStr →
      ∃ s t, src = some s ∧ tgt = some t ∧ moveStr = s ++ t) := by
  constructor
  · intro lib playerColor st ev a hre hev h
    exact chessStep_emit_format lib playerColor st ev a
      (chessInv_of_reachable lib playerColor st hre) hev h
  · intro lib playerColor st src tgt moveStr h
    cases src with
    | none =>
      cases tgt <;> exact Option.noConfusion h
    | some s =>
      cases tgt with
      | none => exact Option.noConfusion h
      | some t =>
        rw [part016HandlePieceDrop] at h
        revert h
        cases lib.pieceAt st.gamePos s with
        | none =>
          intro h
          exact absurd h (by simp)
        | some piece =>
          dsimp only
          by_cases hsp : playerColor = PlayerColor.spectator ∨
              playerColor.matchesPiece piece.1 = false
          · rw [if_pos hsp]
            intro h
            exact absurd h (by simp)
          · rw [if_neg hsp]
            by_cases hst : s = t
            · rw [if_pos hst]
              intro h
              exact absurd h (by simp)
            · rw [if_neg hst]
              revert piece
              intro piece hsp
              cases lib.moveResult st.gamePos s t 'q' with
              | none =>
                intro h
                exact absurd h (by simp)
              | some newFen =>
                intro h
                simp only [Option.some.injEq] at h
                exact ⟨s, t, rfl, rfl, h.symm⟩

/-- Closed witness for C7 (amended): the knight drag g1-f3 on the
`chess.tsx` component emits `MAKE_MOVE "g1f3"`, and the part_016
variant's accepted drag e7-e8 emits the bare concatenation of its two
squares. -/
theorem C7_move_format_witness :
    (chessActionWit.type = ChessActionType.MAKE_MOVE ∧
     ∃ fromSq toSq promo,
       chessActionWit.payload = some { move := fromSq ++ toSq ++ promo } ∧
       fromSq.length = 2 ∧ toSq.length = 2 ∧
       ((promo = "" ∧ isPromotionMove chessLibWit
           (initialChessState "fen-0").gamePos fromSq toSq = false) ∨
         ((∃ ch, promo = String.mk [ch]) ∧ isPromotionMove chessLibWit
           (initialChessState "fen-0").gamePos fromSq toSq = true))) ∧
    (∃ s t, (some "e7" : Option String) = some s ∧
      (some "e8" : Option String) = some t ∧ ("e7e8" : String) = s ++ t) :=
  ⟨C7_move_format.1 chessLibWit PlayerColor.w (initialChessState "fen-0")
      (ChessEvent.dragDrop (some "g1") PieceColor.w (some "f3")) chessActionWit
      (ChessReachable.init "fen-0")
      ⟨fun s hs => by injection hs with h2; subst h2; decide,
       fun s hs => by injection hs with h2; subst h2; decide⟩
      (by decide),
   C7_move_format.2 promoLibWit PlayerColor.w (initialChessState "fen-2")
      (some "e7") (some "e8") "e7e8" (by decide)⟩
